import Mathlib

/-!
Verification of the QRKot charity-fund backend (`Cat_Charity_Fund_QRkot`).

The repository source available under `src/` is the charity-project API
endpoint module (`app/api/endpoints/charity_project.py`).  The allocation
engine (`app.services.investing.donation_process`), the validators
(`app.api.validators`), the CRUD layer and the ORM models are referenced by
that module but their code is not in `src/`; they are modelled here from the
specification, each such definition carrying a doc comment that starts with
`Modelled from the spec:`.

Machine integers are modelled as `Nat` (currency minor units, no overflow in
the source's integer arithmetic); fallible endpoint code returns `Except`.
-/

/-- Modelled from the spec: the shared `Investable` attribute set of the ORM
models `CharityProject` and `Donation` (`app/models`, not under `src/`):
`full_amount`, `invested_amount`, `fully_invested`, `create_date`,
`close_date`.  Dates are modelled as natural-number timestamps. -/
structure Investable where
  full_amount : Nat
  invested_amount : Nat
  fully_invested : Bool
  create_date : Nat
  close_date : Option Nat
deriving Repr, DecidableEq

/-- Modelled from the spec: `remaining need / remaining supply` of an
entity, `full_amount - invested_amount`. -/
def remaining (e : Investable) : Nat :=
  e.full_amount - e.invested_amount

/-- Modelled from the spec: one side of a match step.  Increment
`invested_amount` by the transfer; if the entity now reaches its
`full_amount`, set `fully_invested` and stamp `close_date` with the current
time (spec 4.1 step 2). -/
def invest (now t : Nat) (e : Investable) : Investable :=
  if e.invested_amount + t = e.full_amount then
    { e with invested_amount := e.invested_amount + t,
             fully_invested := true, close_date := some now }
  else
    { e with invested_amount := e.invested_amount + t }

/-- Modelled from the spec: the allocation-engine matching loop of
`app.services.investing.donation_process` (not under `src/`), spec 4.1
steps 2–3.  It walks the counterpart list (already filtered/ordered by
`list_open`); for each counterpart, while the source is not fully invested
and the counterpart is not fully invested, it moves
`transfer = min(source_remaining, counterpart_remaining)` into both sides
and closes each side that reaches its target; it stops scanning as soon as
the source is fully invested.  Returns the updated source, the updated
counterpart list, and the trace of transfer amounts applied. -/
def donation_process (now : Nat) (source : Investable) :
    List Investable → Investable × List Investable × List Nat
  | [] => (source, [], [])
  | c :: rest =>
    if source.fully_invested then
      (source, c :: rest, [])
    else if c.fully_invested then
      let r := donation_process now source rest
      (r.1, c :: r.2.1, r.2.2)
    else
      let t := min (remaining source) (remaining c)
      let r := donation_process now (invest now t source) rest
      (r.1, invest now t c :: r.2.1, t :: r.2.2)

/-- Ordering used to load counterparts: by `create_date` ascending. -/
def byCreateDate (a b : Investable) : Prop :=
  a.create_date ≤ b.create_date

instance : DecidableRel byCreateDate := fun a b =>
  inferInstanceAs (Decidable (a.create_date ≤ b.create_date))

instance : IsTotal Investable byCreateDate :=
  ⟨fun a b => Nat.le_total a.create_date b.create_date⟩

instance : IsTrans Investable byCreateDate :=
  ⟨fun _ _ _ hab hbc => Nat.le_trans hab hbc⟩

/-- Modelled from the spec: the counterpart-loading step of the engine
(spec 4.1 step 1 / collaborator `list_open`): all counterpart entities with
`fully_invested == false`, ordered by `create_date` ascending. -/
def list_open (pool : List Investable) : List Investable :=
  List.insertionSort byCreateDate (pool.filter (fun e => !e.fully_invested))

/-- Sum of `invested_amount` over a list of entities. -/
def sumInvested (l : List Investable) : Nat :=
  (l.map Investable.invested_amount).sum

theorem sumInvested_nil : sumInvested [] = 0 := rfl

theorem sumInvested_cons (e : Investable) (l : List Investable) :
    sumInvested (e :: l) = e.invested_amount + sumInvested l := rfl

theorem invest_invested_amount (now t : Nat) (e : Investable) :
    (invest now t e).invested_amount = e.invested_amount + t := by
  unfold invest
  split <;> rfl

theorem invest_full_amount (now t : Nat) (e : Investable) :
    (invest now t e).full_amount = e.full_amount := by
  unfold invest
  split <;> rfl

theorem invest_create_date (now t : Nat) (e : Investable) :
    (invest now t e).create_date = e.create_date := by
  unfold invest
  split <;> rfl

/-- The engine is the identity when the source arrives fully invested. -/
theorem donation_process_of_fully_invested (now : Nat) (s : Investable)
    (cs : List Investable) (h : s.fully_invested = true) :
    donation_process now s cs = (s, cs, []) := by
  cases cs with
  | nil => rfl
  | cons c rest => simp [donation_process, h]

theorem donation_process_nil (now : Nat) (s : Investable) :
    donation_process now s [] = (s, [], []) := rfl

/-- Conservation, source side: the source's final `invested_amount` is its
initial one plus the total of the transfer trace. -/
theorem donation_process_source_invested (now : Nat) :
    ∀ (cs : List Investable) (s : Investable),
      (donation_process now s cs).1.invested_amount
        = s.invested_amount + (donation_process now s cs).2.2.sum := by
  intro cs
  induction cs with
  | nil => intro s; simp [donation_process]
  | cons c rest ih =>
    intro s
    by_cases hs : s.fully_invested = true
    · simp [donation_process, hs]
    · simp only [Bool.not_eq_true] at hs
      by_cases hc : c.fully_invested = true
      · simpa [donation_process, hs, hc] using ih s
      · simp only [Bool.not_eq_true] at hc
        have h := ih (invest now (min (remaining s) (remaining c)) s)
        simp [donation_process, hs, hc, h, invest_invested_amount,
          Nat.add_assoc]

/-- Conservation, counterpart side: the counterparts' total
`invested_amount` grows by exactly the total of the transfer trace. -/
theorem donation_process_counterpart_invested (now : Nat) :
    ∀ (cs : List Investable) (s : Investable),
      sumInvested (donation_process now s cs).2.1
        = sumInvested cs + (donation_process now s cs).2.2.sum := by
  intro cs
  induction cs with
  | nil => intro s; simp [donation_process, sumInvested]
  | cons c rest ih =>
    intro s
    by_cases hs : s.fully_invested = true
    · simp [donation_process, hs]
    · simp only [Bool.not_eq_true] at hs
      by_cases hc : c.fully_invested = true
      · have h := ih s
        simp [donation_process, hs, hc, sumInvested_cons, h, Nat.add_assoc]
      · simp only [Bool.not_eq_true] at hc
        have h := ih (invest now (min (remaining s) (remaining c)) s)
        simp [donation_process, hs, hc, sumInvested_cons, h,
          invest_invested_amount, Nat.add_assoc, Nat.add_left_comm]

/-- Well-formedness of an `Investable` as stated by the spec's data-model
invariants: amount in range, `fully_invested` tracks `invested_amount ==
full_amount`, and `close_date` is set exactly when the entity is closed. -/
def WF (e : Investable) : Prop :=
  e.invested_amount ≤ e.full_amount ∧
  (e.fully_invested = true ↔ e.invested_amount = e.full_amount) ∧
  (e.close_date.isSome = true ↔ e.fully_invested = true)

instance (e : Investable) : Decidable (WF e) := by
  unfold WF
  infer_instance

theorem WF_close_none {e : Investable} (hwf : WF e)
    (h : e.fully_invested = false) : e.close_date = none := by
  have h2 := hwf.2.2
  cases hcd : e.close_date with
  | none => rfl
  | some d => rw [hcd] at h2; simp [h] at h2

theorem invest_WF (now t : Nat) (e : Investable) (hwf : WF e)
    (he : e.fully_invested = false) (ht : t ≤ remaining e) :
    WF (invest now t e) := by
  have h1 := hwf.1
  have hcd := WF_close_none hwf he
  unfold remaining at ht
  unfold invest
  split
  · rename_i heq
    refine ⟨?_, ?_, ?_⟩ <;> dsimp only
    · exact Nat.le_of_eq heq
    · simp [heq]
    · simp
  · rename_i hne
    refine ⟨?_, ?_, ?_⟩ <;> dsimp only
    · omega
    · simp [he, hne]
    · simp [hcd, he]

theorem invest_close (now t : Nat) (e : Investable) (h : e.close_date = none) :
    ((invest now t e).close_date = none ∧
      (invest now t e).fully_invested = e.fully_invested) ∨
    ((invest now t e).close_date = some now ∧
      (invest now t e).fully_invested = true) := by
  unfold invest
  split
  · exact Or.inr ⟨rfl, rfl⟩
  · exact Or.inl ⟨h, rfl⟩

/-- How one engine invocation treats an entity's `close_date`: an entity
that already carries a `close_date` is returned untouched, and otherwise
the `close_date` either stays as it was or is set (to the invocation's
`now`) at the same moment `fully_invested` becomes `true`. -/
def ClosePreserved (now : Nat) (e e' : Investable) : Prop :=
  (∀ d, e.close_date = some d → e' = e) ∧
  (e'.close_date = e.close_date ∨
    (e.close_date = none ∧ e'.close_date = some now ∧
      e'.fully_invested = true))

theorem ClosePreserved_refl (now : Nat) (e : Investable) :
    ClosePreserved now e e :=
  ⟨fun _ _ => rfl, Or.inl rfl⟩

theorem forall₂_close_refl (now : Nat) :
    ∀ l : List Investable, List.Forall₂ (ClosePreserved now) l l
  | [] => List.Forall₂.nil
  | e :: l =>
    List.Forall₂.cons (ClosePreserved_refl now e) (forall₂_close_refl now l)

theorem ClosePreserved_comp (now : Nat) {a b c : Investable}
    (ha : a.close_date = none)
    (hb : (b.close_date = none ∧ b.fully_invested = a.fully_invested) ∨
      (b.close_date = some now ∧ b.fully_invested = true))
    (hbc : ClosePreserved now b c)
    (hfix : b.fully_invested = true → c = b) :
    ClosePreserved now a c := by
  refine ⟨fun d hd => by rw [ha] at hd; exact absurd hd (by simp), ?_⟩
  rcases hb with ⟨hb1, _⟩ | ⟨hb1, hb2⟩
  · rcases hbc.2 with h | ⟨_, h2, h3⟩
    · exact Or.inl (h.trans (hb1.trans ha.symm))
    · exact Or.inr ⟨ha, h2, h3⟩
  · have hc := hfix hb2
    exact Or.inr ⟨ha, hc ▸ hb1, hc ▸ hb2⟩

theorem invest_ClosePreserved (now t : Nat) (e : Investable)
    (h : e.close_date = none) : ClosePreserved now e (invest now t e) := by
  refine ⟨fun d hd => by rw [h] at hd; exact absurd hd (by simp), ?_⟩
  rcases invest_close now t e h with ⟨h1, _⟩ | ⟨h1, h2⟩
  · exact Or.inl (h1.trans h.symm)
  · exact Or.inr ⟨h, h1, h2⟩

/-- Main preservation result for one engine invocation: well-formedness of
every entity is preserved, and `close_date` behaves as `ClosePreserved`
describes for the source and (pointwise) for the counterparts. -/
theorem donation_process_WF (now : Nat) :
    ∀ (cs : List Investable) (s : Investable), WF s → (∀ c ∈ cs, WF c) →
      (WF (donation_process now s cs).1 ∧
        ∀ c ∈ (donation_process now s cs).2.1, WF c) ∧
      ClosePreserved now s (donation_process now s cs).1 ∧
      List.Forall₂ (ClosePreserved now) cs (donation_process now s cs).2.1 := by
  intro cs
  induction cs with
  | nil =>
    intro s hs _
    simp only [donation_process_nil]
    exact ⟨⟨hs, by simp⟩, ClosePreserved_refl now s, List.Forall₂.nil⟩
  | cons c rest ih =>
    intro s hs hcs
    have hc : WF c := hcs c (by simp)
    have hrest : ∀ x ∈ rest, WF x := fun x hx => hcs x (by simp [hx])
    by_cases hsf : s.fully_invested = true
    · simp only [donation_process, hsf, if_true]
      exact ⟨⟨hs, hcs⟩, ClosePreserved_refl now s, forall₂_close_refl now _⟩
    · simp only [Bool.not_eq_true] at hsf
      by_cases hcf : c.fully_invested = true
      · have IH := ih s hs hrest
        simp only [donation_process, hsf, hcf, Bool.false_eq_true,
          if_false, if_true]
        refine ⟨⟨IH.1.1, ?_⟩, IH.2.1,
          List.Forall₂.cons (ClosePreserved_refl now c) IH.2.2⟩
        intro x hx
        rcases List.mem_cons.mp hx with h | h
        · exact h ▸ hc
        · exact IH.1.2 x h
      · simp only [Bool.not_eq_true] at hcf
        have hts : min (remaining s) (remaining c) ≤ remaining s :=
          min_le_left _ _
        have htc : min (remaining s) (remaining c) ≤ remaining c :=
          min_le_right _ _
        have hs1 : WF (invest now (min (remaining s) (remaining c)) s) :=
          invest_WF now _ s hs hsf hts
        have hc1 : WF (invest now (min (remaining s) (remaining c)) c) :=
          invest_WF now _ c hc hcf htc
        have hscl : s.close_date = none := WF_close_none hs hsf
        have hccl : c.close_date = none := WF_close_none hc hcf
        have IH := ih (invest now (min (remaining s) (remaining c)) s)
          hs1 hrest
        simp only [donation_process, hsf, hcf, Bool.false_eq_true, if_false]
        refine ⟨⟨IH.1.1, ?_⟩, ?_, List.Forall₂.cons
          (invest_ClosePreserved now _ c hccl) IH.2.2⟩
        · intro x hx
          rcases List.mem_cons.mp hx with h | h
          · exact h ▸ hc1
          · exact IH.1.2 x h
        · refine ClosePreserved_comp now hscl ?_ IH.2.1 ?_
          · rcases invest_close now (min (remaining s) (remaining c)) s
              hscl with ⟨h1, h2⟩ | h
            · exact Or.inl ⟨h1, h2⟩
            · exact Or.inr h
          · intro hfull
            rw [donation_process_of_fully_invested now _ rest hfull]

/-- Compositionality of the matching loop over list append: processing
`l1 ++ l2` is processing `l1`, then processing `l2` from the resulting
source state. -/
theorem donation_process_append (now : Nat) :
    ∀ (l1 l2 : List Investable) (s : Investable),
      donation_process now s (l1 ++ l2) =
        ((donation_process now (donation_process now s l1).1 l2).1,
         (donation_process now s l1).2.1 ++
           (donation_process now (donation_process now s l1).1 l2).2.1,
         (donation_process now s l1).2.2 ++
           (donation_process now (donation_process now s l1).1 l2).2.2) := by
  intro l1
  induction l1 with
  | nil => intro l2 s; simp [donation_process_nil]
  | cons c rest ih =>
    intro l2 s
    by_cases hs : s.fully_invested = true
    · simp [donation_process, hs,
        donation_process_of_fully_invested now s l2 hs]
    · simp only [Bool.not_eq_true] at hs
      by_cases hc : c.fully_invested = true
      · simp [donation_process, hs, hc, ih]
      · simp only [Bool.not_eq_true] at hc
        simp [donation_process, hs, hc, ih]

/-- The engine never changes the source's `full_amount`. -/
theorem donation_process_source_full_amount (now : Nat) :
    ∀ (cs : List Investable) (s : Investable),
      (donation_process now s cs).1.full_amount = s.full_amount := by
  intro cs
  induction cs with
  | nil => intro s; simp [donation_process_nil]
  | cons c rest ih =>
    intro s
    by_cases hs : s.fully_invested = true
    · simp [donation_process, hs]
    · simp only [Bool.not_eq_true] at hs
      by_cases hc : c.fully_invested = true
      · simp [donation_process, hs, hc, ih]
      · simp only [Bool.not_eq_true] at hc
        simp [donation_process, hs, hc, ih, invest_full_amount]

theorem list_open_open (pool : List Investable) :
    ∀ e ∈ list_open pool, e.fully_invested = false := by
  intro e he
  unfold list_open at he
  have hmem := (List.perm_insertionSort byCreateDate
    (pool.filter (fun x => !x.fully_invested))).mem_iff.mp he
  have := (List.mem_filter.mp hmem).2
  simpa using this

theorem list_open_sorted (pool : List Investable) :
    List.Sorted byCreateDate (list_open pool) :=
  List.sorted_insertionSort byCreateDate _

theorem list_open_of_all_closed (pool : List Investable)
    (h : ∀ e ∈ pool, e.fully_invested = true) : list_open pool = [] := by
  unfold list_open
  have hf : pool.filter (fun e => !e.fully_invested) = [] := by
    rw [List.filter_eq_nil_iff]
    intro e he
    simp [h e he]
  rw [hf]
  rfl

/-- C1: each individual match of one engine invocation moves exactly
`min(remaining need of the target, remaining supply of the source)`, and
the sum of `invested_amount` over all entities after processing equals the
sum before plus exactly the total of the transfers applied (each match
applies its transfer to both the source and the counterpart, so the
per-side total applied is the trace sum on each side); no amount is
created or destroyed. -/
theorem claim_C1_conservation (now : Nat) (s c : Investable)
    (rest : List Investable)
    (hs : s.fully_invested = false) (hc : c.fully_invested = false) :
    (∀ (s₀ : Investable) (cs : List Investable),
      (donation_process now s₀ cs).1.invested_amount
          = s₀.invested_amount + (donation_process now s₀ cs).2.2.sum ∧
      sumInvested (donation_process now s₀ cs).2.1
          = sumInvested cs + (donation_process now s₀ cs).2.2.sum ∧
      (donation_process now s₀ cs).1.invested_amount
          + sumInvested (donation_process now s₀ cs).2.1
        = s₀.invested_amount + sumInvested cs
          + ((donation_process now s₀ cs).2.2.sum
              + (donation_process now s₀ cs).2.2.sum)) ∧
    donation_process now s (c :: rest) =
      ((donation_process now
          (invest now (min (remaining s) (remaining c)) s) rest).1,
        invest now (min (remaining s) (remaining c)) c ::
          (donation_process now
            (invest now (min (remaining s) (remaining c)) s) rest).2.1,
        min (remaining s) (remaining c) ::
          (donation_process now
            (invest now (min (remaining s) (remaining c)) s) rest).2.2) := by
  constructor
  · intro s₀ cs
    have h1 := donation_process_source_invested now cs s₀
    have h2 := donation_process_counterpart_invested now cs s₀
    exact ⟨h1, h2, by omega⟩
  · simp [donation_process, hs, hc]

theorem claim_C1_conservation_witness :
    (⟨1000, 0, false, 0, none⟩ : Investable).fully_invested = false ∧
    (⟨600, 0, false, 1, none⟩ : Investable).fully_invested = false ∧
    ((donation_process 5 ⟨1000, 0, false, 0, none⟩
        [⟨600, 0, false, 1, none⟩]).1.invested_amount
      = (⟨1000, 0, false, 0, none⟩ : Investable).invested_amount
        + (donation_process 5 ⟨1000, 0, false, 0, none⟩
            [⟨600, 0, false, 1, none⟩]).2.2.sum) :=
  ⟨rfl, rfl,
    ((claim_C1_conservation 5 ⟨1000, 0, false, 0, none⟩
        ⟨600, 0, false, 1, none⟩ [] rfl rfl).1
      ⟨1000, 0, false, 0, none⟩ [⟨600, 0, false, 1, none⟩]).1⟩

/-- C2: after an engine invocation on well-formed entities, every entity
(source and all counterparts) satisfies `fully_invested = true` iff
`invested_amount = full_amount` and `close_date ≠ none` iff
`fully_invested = true`; moreover `close_date` is set exactly once — an
entity already carrying a `close_date` is returned untouched, and a
`close_date` that appears is stamped with the invocation's `now` exactly
when `fully_invested` becomes `true` (`ClosePreserved`), so a `close_date`
is never cleared. -/
theorem claim_C2_closure (now : Nat) (s : Investable) (cs : List Investable)
    (hs : WF s) (hcs : ∀ c ∈ cs, WF c) :
    ((donation_process now s cs).1.fully_invested = true ↔
        (donation_process now s cs).1.invested_amount
          = (donation_process now s cs).1.full_amount) ∧
    ((donation_process now s cs).1.close_date ≠ none ↔
        (donation_process now s cs).1.fully_invested = true) ∧
    (∀ c ∈ (donation_process now s cs).2.1,
      (c.fully_invested = true ↔ c.invested_amount = c.full_amount) ∧
      (c.close_date ≠ none ↔ c.fully_invested = true)) ∧
    ClosePreserved now s (donation_process now s cs).1 ∧
    List.Forall₂ (ClosePreserved now) cs (donation_process now s cs).2.1 := by
  have H := donation_process_WF now cs s hs hcs
  refine ⟨H.1.1.2.1, ?_, ?_, H.2.1, H.2.2⟩
  · rw [← H.1.1.2.2, Option.ne_none_iff_isSome]
  · intro c hcmem
    have hwc := H.1.2 c hcmem
    refine ⟨hwc.2.1, ?_⟩
    rw [← hwc.2.2, Option.ne_none_iff_isSome]

theorem claim_C2_closure_witness :
    WF ⟨500, 200, false, 0, none⟩ ∧
    (∀ c ∈ [(⟨300, 0, false, 1, none⟩ : Investable)], WF c) ∧
    ClosePreserved 7 ⟨500, 200, false, 0, none⟩
      (donation_process 7 ⟨500, 200, false, 0, none⟩
        [⟨300, 0, false, 1, none⟩]).1 :=
  ⟨by decide, by decide,
    (claim_C2_closure 7 ⟨500, 200, false, 0, none⟩
      [⟨300, 0, false, 1, none⟩] (by decide) (by decide)).2.2.2.1⟩

/-- C3: within one engine invocation, only counterparts with
`fully_invested = false` are considered — the loading step keeps exactly
the open entities and orders them by `create_date` ascending — and for
counterparts created at times `t1 < t2 < t3`, a source whose capacity is
exhausted by the first two leaves the third counterpart unchanged;
scanning stops as soon as the source is fully invested. -/
theorem claim_C3_fifo (now : Nat) (pool : List Investable)
    (s c1 c2 c3 : Investable)
    (h12 : c1.create_date < c2.create_date)
    (h23 : c2.create_date < c3.create_date)
    (hex : (donation_process now s [c1, c2]).1.fully_invested = true) :
    (∀ e ∈ list_open pool, e.fully_invested = false) ∧
    List.Sorted byCreateDate (list_open pool) ∧
    (donation_process now s [c1, c2, c3]).2.1
      = (donation_process now s [c1, c2]).2.1 ++ [c3] ∧
    (donation_process now s [c1, c2, c3]).1
      = (donation_process now s [c1, c2]).1 ∧
    (∀ (s₀ : Investable) (cs : List Investable), s₀.fully_invested = true →
      donation_process now s₀ cs = (s₀, cs, [])) := by
  have happ := donation_process_append now [c1, c2] [c3] s
  rw [donation_process_of_fully_invested now _ [c3] hex] at happ
  refine ⟨list_open_open pool, list_open_sorted pool, ?_, ?_,
    fun s₀ cs h => donation_process_of_fully_invested now s₀ cs h⟩
  · have : ([c1, c2] ++ [c3] : List Investable) = [c1, c2, c3] := rfl
    rw [this] at happ
    rw [happ]
  · have : ([c1, c2] ++ [c3] : List Investable) = [c1, c2, c3] := rfl
    rw [this] at happ
    rw [happ]

theorem claim_C3_fifo_witness :
    ((⟨600, 0, false, 1, none⟩ : Investable).create_date
        < (⟨400, 0, false, 2, none⟩ : Investable).create_date) ∧
    ((⟨400, 0, false, 2, none⟩ : Investable).create_date
        < (⟨300, 0, false, 3, none⟩ : Investable).create_date) ∧
    (donation_process 9 ⟨1000, 0, false, 0, none⟩
      [⟨600, 0, false, 1, none⟩,
        ⟨400, 0, false, 2, none⟩]).1.fully_invested = true ∧
    (donation_process 9 ⟨1000, 0, false, 0, none⟩
      [⟨600, 0, false, 1, none⟩, ⟨400, 0, false, 2, none⟩,
        ⟨300, 0, false, 3, none⟩]).2.1
      = (donation_process 9 ⟨1000, 0, false, 0, none⟩
          [⟨600, 0, false, 1, none⟩, ⟨400, 0, false, 2, none⟩]).2.1
        ++ [⟨300, 0, false, 3, none⟩] :=
  ⟨by decide, by decide, by decide,
    (claim_C3_fifo 9 [] ⟨1000, 0, false, 0, none⟩ ⟨600, 0, false, 1, none⟩
      ⟨400, 0, false, 2, none⟩ ⟨300, 0, false, 3, none⟩
      (by decide) (by decide) (by decide)).2.2.1⟩

/-- C6: if no open counterparts exist the engine returns the source
entity itself with every field unchanged (and an empty transfer trace),
and a source that arrives already fully invested makes the invocation a
no-op: the source and every counterpart are returned exactly as given. -/
theorem claim_C6_noop (now : Nat) (s : Investable) (pool : List Investable)
    (h : ∀ e ∈ pool, e.fully_invested = true) :
    donation_process now s (list_open pool) = (s, [], []) ∧
    (∀ (s' : Investable) (cs : List Investable), s'.fully_invested = true →
      donation_process now s' cs = (s', cs, [])) := by
  constructor
  · rw [list_open_of_all_closed pool h, donation_process_nil]
  · exact fun s' cs h' => donation_process_of_fully_invested now s' cs h'

theorem claim_C6_noop_witness :
    (∀ e ∈ [(⟨5, 5, true, 0, some 9⟩ : Investable)],
      e.fully_invested = true) ∧
    donation_process 11 ⟨1000, 0, false, 0, none⟩
      (list_open [⟨5, 5, true, 0, some 9⟩])
      = (⟨1000, 0, false, 0, none⟩, [], []) :=
  ⟨by decide,
    (claim_C6_noop 11 ⟨1000, 0, false, 0, none⟩
      [⟨5, 5, true, 0, some 9⟩] (by decide)).1⟩

/-- Errors raised by the validators (`HTTPException`s in the source). -/
inductive ApiError where
  | notFound
  | projectClosed
  | nameDuplicate
  | invalidFullAmount
  | hasInvestment
deriving Repr, DecidableEq

/-- Modelled from the spec: the `CharityProject` ORM model
(`app/models`, not under `src/`): the `Investable` attribute set plus
`id`, unique `name` and `description`. -/
structure CharityProject where
  id : Nat
  name : String
  description : String
  base : Investable
deriving Repr, DecidableEq

/-- Modelled from the spec: the `CharityProjectCreate` request schema
(`app/schemas/charity_project.py`, not under `src/`). -/
structure CharityProjectCreate where
  name : String
  description : String
  full_amount : Nat
deriving Repr, DecidableEq

/-- Modelled from the spec: the `CharityProjectUpdate` request schema
(`app/schemas/charity_project.py`, not under `src/`) — all fields
optional. -/
structure CharityProjectUpdate where
  name : Option String
  description : Option String
  full_amount : Option Nat
deriving Repr, DecidableEq

/-- Python truthiness of an optional string (`if obj_in.name:`):
`None` and the empty string are falsy. -/
def truthyStr : Option String → Bool
  | none => false
  | some s => !(s == "")

/-- Python truthiness of an optional number (`if not obj_in.full_amount:`):
`None` and `0` are falsy. -/
def truthyNat : Option Nat → Bool
  | none => false
  | some n => !(n == 0)

/-- Modelled from the spec: validator `check_charity_project_exists`
(`app/api/validators.py`, not under `src/`): look the project up by id,
404 error when absent. -/
def check_charity_project_exists (project_id : Nat)
    (projects : List CharityProject) : Except ApiError CharityProject :=
  match projects.find? (fun p => p.id == project_id) with
  | some p => .ok p
  | none => .error .notFound

/-- Modelled from the spec: validator `check_charity_project_active`
(`app/api/validators.py`, not under `src/`): a closed (fully invested)
project cannot be edited. -/
def check_charity_project_active (p : CharityProject) :
    Except ApiError CharityProject :=
  if p.base.fully_invested then .error .projectClosed else .ok p

/-- Modelled from the spec: validator `check_name_duplicate`
(`app/api/validators.py`, not under `src/`): error when a project with
this name already exists. -/
def check_name_duplicate (nm : String) (projects : List CharityProject) :
    Except ApiError Unit :=
  if projects.any (fun p => p.name == nm) then .error .nameDuplicate
  else .ok ()

/-- Modelled from the spec: validator `check_charity_project_updated_amount`
(`app/api/validators.py`, not under `src/`): the new required amount may
not be below the amount already invested. -/
def check_charity_project_updated_amount (full_amount invested_amount : Nat) :
    Except ApiError Unit :=
  if full_amount < invested_amount then .error .invalidFullAmount
  else .ok ()

/-- Modelled from the spec: validator `check_charity_project_has_investment`
(`app/api/validators.py`, not under `src/`): a project that already
received investments cannot be deleted. -/
def check_charity_project_has_investment (p : CharityProject) :
    Except ApiError Unit :=
  if p.base.invested_amount ≠ 0 then .error .hasInvestment else .ok ()

/-- Modelled from the spec: `charity_project_crud.create`
(`app/crud`, not under `src/`): persist a new project from the request
schema with `invested_amount = 0`, open, no `close_date`, stamped with the
creation time. -/
def charity_project_crud_create (now next_id : Nat)
    (obj_in : CharityProjectCreate) : CharityProject :=
  { id := next_id, name := obj_in.name, description := obj_in.description,
    base := { full_amount := obj_in.full_amount, invested_amount := 0,
              fully_invested := false, create_date := now,
              close_date := none } }

/-- Modelled from the spec: `charity_project_crud.update`
(`app/crud`, not under `src/`): apply the fields present in the request
schema (`name`, `description`, `full_amount`); the allocation state
(`invested_amount`, `fully_invested`, `close_date`, `create_date`) is not
part of the update schema and is untouched. -/
def charity_project_crud_update (p : CharityProject)
    (obj_in : CharityProjectUpdate) : CharityProject :=
  { p with
    name := obj_in.name.getD p.name,
    description := obj_in.description.getD p.description,
    base := { p.base with
      full_amount := obj_in.full_amount.getD p.base.full_amount } }

/-- Modelled from the spec: `charity_project_crud.delete`
(`app/crud`, not under `src/`): remove the project row. -/
def charity_project_crud_delete (p : CharityProject)
    (projects : List CharityProject) : List CharityProject :=
  projects.filter (fun q => q.id ≠ p.id)

/-- The `POST /charity_project/` endpoint `create_new_charity_project`
(`src/app/api/endpoints/charity_project.py`, lines 45–57): check the name
for duplicates, persist the new project, run the allocation engine with
the new project as source against the donation ledger, and return the
engine's updated source.  The last component of the result counts the
engine invocations performed by the request. -/
def create_new_charity_project (now next_id : Nat)
    (projects : List CharityProject) (donations : List Investable)
    (charity_project : CharityProjectCreate) :
    Except ApiError (CharityProject × List Investable × Nat) :=
  match check_name_duplicate charity_project.name projects with
  | .error e => .error e
  | .ok _ =>
    let new_project := charity_project_crud_create now next_id charity_project
    let r := donation_process now new_project.base (list_open donations)
    .ok ({ new_project with base := r.1 }, r.2.1, 1)

/-- The `PATCH /charity_project/{id}` endpoint
`partially_update_charity_project`
(`src/app/api/endpoints/charity_project.py`, lines 65–93): look up the
project, refuse edits of closed projects, check a truthy new name for
duplicates; when the body has no truthy `full_amount`, apply the CRUD
update and return without running the engine; otherwise validate the new
`full_amount` against `invested_amount`, apply the CRUD update, run the
engine with the updated project as source against the donation ledger,
and return its updated source.  The last component of the result counts
the engine invocations performed by the request. -/
def partially_update_charity_project (now : Nat)
    (projects : List CharityProject) (donations : List Investable)
    (project_id : Nat) (obj_in : CharityProjectUpdate) :
    Except ApiError (CharityProject × List Investable × Nat) :=
  match check_charity_project_exists project_id projects with
  | .error e => .error e
  | .ok p0 =>
    match check_charity_project_active p0 with
    | .error e => .error e
    | .ok p1 =>
      match (if truthyStr obj_in.name then
              check_name_duplicate (obj_in.name.getD "") projects
            else .ok ()) with
      | .error e => .error e
      | .ok _ =>
        if !truthyNat obj_in.full_amount then
          .ok (charity_project_crud_update p1 obj_in, donations, 0)
        else
          match check_charity_project_updated_amount
              (obj_in.full_amount.getD 0) p1.base.invested_amount with
          | .error e => .error e
          | .ok _ =>
            let p2 := charity_project_crud_update p1 obj_in
            let r := donation_process now p2.base (list_open donations)
            .ok ({ p2 with base := r.1 }, r.2.1, 1)

/-- The `DELETE /charity_project/{id}` endpoint `delete_charity_project`
(`src/app/api/endpoints/charity_project.py`, lines 101–114): look up the
project, refuse when it already has investments, otherwise delete it and
return it. -/
def delete_charity_project (projects : List CharityProject)
    (project_id : Nat) :
    Except ApiError (CharityProject × List CharityProject) :=
  match check_charity_project_exists project_id projects with
  | .error e => .error e
  | .ok p =>
    match check_charity_project_has_investment p with
    | .error e => .error e
    | .ok _ => .ok (p, charity_project_crud_delete p projects)

theorem truthyNat_false_eq_none {o : Option Nat} (h : truthyNat o = false)
    (h0 : o ≠ some 0) : o = none := by
  cases o with
  | none => rfl
  | some n =>
    cases n with
    | zero => exact absurd rfl h0
    | succ k => simp [truthyNat] at h

theorem truthyNat_true_exists {o : Option Nat} (h : truthyNat o = true) :
    ∃ n, o = some n ∧ n ≠ 0 := by
  cases o with
  | none => simp [truthyNat] at h
  | some n =>
    refine ⟨n, rfl, ?_⟩
    intro hn
    rw [hn] at h
    simp [truthyNat] at h

/-- C4 counterexample: an update that *decreases* `full_amount` from 100
to 50 on an open project with `invested_amount = 0` still runs the
allocation engine (the invocation counter in the result is 1), refuting
"the engine is invoked only when the required amount was increased". -/
theorem claim_C4_counterexample :
    (50 : Nat) < 100 ∧
    partially_update_charity_project 3
        [{ id := 1, name := "a", description := "d",
           base := ⟨100, 0, false, 0, none⟩ }] [] 1
        ⟨none, none, some 50⟩
      = .ok ({ id := 1, name := "a", description := "d",
               base := ⟨50, 0, false, 0, none⟩ }, [], 1) :=
  ⟨by decide, by rfl⟩

/-- C4 (amended): on project update the engine is invoked exactly when the
request body carries a truthy (present and nonzero) `full_amount`, the
project exists and is still open, and the new `full_amount` passes the
`>= invested_amount` validator — whether or not it increases the previous
`full_amount`; every update whose body has no truthy `full_amount` leaves
the engine not run. -/
theorem claim_C4_engine_condition (now : Nat)
    (projects : List CharityProject) (donations : List Investable)
    (project_id : Nat) (obj_in : CharityProjectUpdate)
    (p' : CharityProject) (ds' : List Investable) (n : Nat)
    (hok : partially_update_charity_project now projects donations
        project_id obj_in = .ok (p', ds', n)) :
    (n = 1 ↔ truthyNat obj_in.full_amount = true) ∧
    (n = 0 ↔ truthyNat obj_in.full_amount = false) ∧
    (∀ p, check_charity_project_exists project_id projects = .ok p →
      p.base.fully_invested = false ∧
      (truthyNat obj_in.full_amount = true →
        p.base.invested_amount ≤ obj_in.full_amount.getD 0)) := by
  unfold partially_update_charity_project at hok
  cases hex : check_charity_project_exists project_id projects with
  | error e => rw [hex] at hok; exact absurd hok (by simp)
  | ok p0 =>
    rw [hex] at hok
    by_cases hcl : p0.base.fully_invested = true
    · simp [check_charity_project_active, hcl] at hok
    · simp only [Bool.not_eq_true] at hcl
      simp only [check_charity_project_active, hcl, Bool.false_eq_true,
        if_false] at hok
      cases hnc : (if truthyStr obj_in.name then
          check_name_duplicate (obj_in.name.getD "") projects
        else .ok ()) with
      | error e => rw [hnc] at hok; exact absurd hok (by simp)
      | ok u =>
        rw [hnc] at hok
        by_cases ht : truthyNat obj_in.full_amount = true
        · simp only [ht, Bool.not_true, Bool.false_eq_true, if_false] at hok
          by_cases hlt : obj_in.full_amount.getD 0 < p0.base.invested_amount
          · simp [check_charity_project_updated_amount, hlt] at hok
          · simp only [check_charity_project_updated_amount, hlt,
              if_false, Except.ok.injEq, Prod.mk.injEq] at hok
            refine ⟨by simp [ht, hok.2.2.symm], by simp [ht, hok.2.2.symm], ?_⟩
            intro p hp
            cases hp
            exact ⟨hcl, fun _ => Nat.le_of_not_lt hlt⟩
        · simp only [Bool.not_eq_true] at ht
          simp only [ht, Bool.not_false, if_true, Except.ok.injEq,
            Prod.mk.injEq] at hok
          refine ⟨by simp [ht, hok.2.2.symm], by simp [ht, hok.2.2.symm], ?_⟩
          intro p hp
          cases hp
          exact ⟨hcl, fun hcon => absurd (ht.symm.trans hcon) (by simp)⟩

theorem claim_C4_engine_condition_witness :
    partially_update_charity_project 3
        [{ id := 1, name := "a", description := "d",
           base := ⟨100, 0, false, 0, none⟩ }] [] 1
        ⟨none, none, some 150⟩
      = .ok ({ id := 1, name := "a", description := "d",
               base := ⟨150, 0, false, 0, none⟩ }, [], 1) ∧
    ((1 : Nat) = 1 ↔ truthyNat (some 150) = true) :=
  ⟨by rfl,
    (claim_C4_engine_condition 3
      [{ id := 1, name := "a", description := "d",
         base := ⟨100, 0, false, 0, none⟩ }] [] 1 ⟨none, none, some 150⟩
      { id := 1, name := "a", description := "d",
        base := ⟨150, 0, false, 0, none⟩ } [] 1 (by rfl)).1⟩

/-- C5: on project creation, once the name-duplicate check passes, the
endpoint persists the new project, invokes the allocation engine exactly
once (invocation counter 1) with the new project as source against the
donation ledger, and returns the engine's updated source entity. -/
theorem claim_C5_create (now next_id : Nat) (projects : List CharityProject)
    (donations : List Investable) (obj_in : CharityProjectCreate)
    (hname : projects.any (fun p => p.name == obj_in.name) = false) :
    create_new_charity_project now next_id projects donations obj_in
      = .ok
        ({ charity_project_crud_create now next_id obj_in with
            base := (donation_process now
              (charity_project_crud_create now next_id obj_in).base
              (list_open donations)).1 },
          (donation_process now
            (charity_project_crud_create now next_id obj_in).base
            (list_open donations)).2.1,
          1) := by
  unfold create_new_charity_project check_name_duplicate
  simp [hname]

theorem claim_C5_create_witness :
    ([] : List CharityProject).any
        (fun p => p.name == ("shelter" : String)) = false ∧
    create_new_charity_project 2 1 [] [⟨200, 0, false, 1, none⟩]
        ⟨"shelter", "roof", 300⟩
      = .ok
        ({ charity_project_crud_create 2 1 ⟨"shelter", "roof", 300⟩ with
            base := (donation_process 2
              (charity_project_crud_create 2 1 ⟨"shelter", "roof", 300⟩).base
              (list_open [⟨200, 0, false, 1, none⟩])).1 },
          (donation_process 2
            (charity_project_crud_create 2 1 ⟨"shelter", "roof", 300⟩).base
            (list_open [⟨200, 0, false, 1, none⟩])).2.1,
          1) :=
  ⟨by decide,
    claim_C5_create 2 1 [] [⟨200, 0, false, 1, none⟩]
      ⟨"shelter", "roof", 300⟩ (by decide)⟩

/-- C7: a charity project can be deleted only while `invested_amount = 0`:
on a project with any investment the delete endpoint raises the
has-investment error and returns no new state, and on an uninvested
project it removes the row and returns the project. -/
theorem claim_C7_delete (projects : List CharityProject) (project_id : Nat)
    (p : CharityProject)
    (hfind : check_charity_project_exists project_id projects = .ok p) :
    (p.base.invested_amount ≠ 0 →
      delete_charity_project projects project_id = .error .hasInvestment) ∧
    (p.base.invested_amount = 0 →
      delete_charity_project projects project_id
        = .ok (p, projects.filter (fun q => q.id ≠ p.id))) := by
  unfold delete_charity_project
  rw [hfind]
  constructor
  · intro h
    simp [check_charity_project_has_investment, h]
  · intro h
    simp [check_charity_project_has_investment, h,
      charity_project_crud_delete]

theorem claim_C7_delete_witness :
    check_charity_project_exists 1
        [{ id := 1, name := "a", description := "d",
           base := ⟨100, 40, false, 0, none⟩ }]
      = .ok { id := 1, name := "a", description := "d",
              base := ⟨100, 40, false, 0, none⟩ } ∧
    (({ id := 1, name := "a", description := "d",
        base := ⟨100, 40, false, 0, none⟩ } : CharityProject).base.invested_amount ≠ 0 →
      delete_charity_project
          [{ id := 1, name := "a", description := "d",
             base := ⟨100, 40, false, 0, none⟩ }] 1
        = .error .hasInvestment) :=
  ⟨by rfl,
    (claim_C7_delete
      [{ id := 1, name := "a", description := "d",
         base := ⟨100, 40, false, 0, none⟩ }] 1
      { id := 1, name := "a", description := "d",
        base := ⟨100, 40, false, 0, none⟩ } (by rfl)).1⟩

/-- Modelled from the spec: the store state touched by one engine
invocation (the source entity and the counterpart pool rows). -/
structure Store where
  source : Investable
  counterparts : List Investable
deriving Repr, DecidableEq

/-- Modelled from the spec: the `CommitFailure` error of the engine's
batch persistence step (spec section 7). -/
inductive CommitFailure where
  | commitError
deriving Repr, DecidableEq

/-- Modelled from the spec: the persistence step of one engine invocation
(spec 4.1 step 4 and the `persist_batch` collaborator, section 6): all
mutated counterparts and the source are committed in one transaction;
`commit_ok` is the outcome of that single atomic commit.  The first
component is what the caller receives, the second is the observable store
state after the call. -/
def donation_process_commit (now : Nat) (st : Store) (commit_ok : Bool) :
    Except CommitFailure Store × Store :=
  let r := donation_process now st.source st.counterparts
  let st' : Store := { source := r.1, counterparts := r.2.1 }
  if commit_ok then (.ok st', st') else (.error .commitError, st)

/-- C9: the engine's mutations are all-or-nothing.  If the commit fails,
the caller receives the commit failure unchanged and the observable store
is exactly the pre-invocation store (no partial mutation); if the commit
succeeds, the observable store carries the updated source and all updated
counterparts, and that same state is what the caller receives. -/
theorem claim_C9_atomic (now : Nat) (st : Store) :
    (donation_process_commit now st false).1 = .error .commitError ∧
    (donation_process_commit now st false).2 = st ∧
    (donation_process_commit now st true).2
      = { source := (donation_process now st.source st.counterparts).1,
          counterparts :=
            (donation_process now st.source st.counterparts).2.1 } ∧
    (donation_process_commit now st true).1
      = .ok (donation_process_commit now st true).2 :=
  ⟨rfl, rfl, rfl, rfl⟩

/-- C10: an update request whose body has no truthy `full_amount` (omitted
or a falsy value such as 0) either fails a validator (returning an error
and no state) or returns the CRUD-updated project with the donation ledger
untouched and the engine never invoked (invocation counter 0); the CRUD
update leaves `invested_amount`, `fully_invested` and `close_date`
unchanged. -/
theorem claim_C10_no_engine (now : Nat) (projects : List CharityProject)
    (donations : List Investable) (project_id : Nat)
    (obj_in : CharityProjectUpdate)
    (ht : truthyNat obj_in.full_amount = false) :
    (∃ e, partially_update_charity_project now projects donations
        project_id obj_in = .error e) ∨
    (∃ p, check_charity_project_exists project_id projects = .ok p ∧
      partially_update_charity_project now projects donations project_id
          obj_in
        = .ok (charity_project_crud_update p obj_in, donations, 0) ∧
      (charity_project_crud_update p obj_in).base.invested_amount
        = p.base.invested_amount ∧
      (charity_project_crud_update p obj_in).base.fully_invested
        = p.base.fully_invested ∧
      (charity_project_crud_update p obj_in).base.close_date
        = p.base.close_date) := by
  unfold partially_update_charity_project
  cases hex : check_charity_project_exists project_id projects with
  | error e => exact Or.inl ⟨e, rfl⟩
  | ok p0 =>
    by_cases hcl : p0.base.fully_invested = true
    · exact Or.inl ⟨.projectClosed, by
        simp [check_charity_project_active, hcl]⟩
    · simp only [Bool.not_eq_true] at hcl
      cases hnc : (if truthyStr obj_in.name then
          check_name_duplicate (obj_in.name.getD "") projects
        else .ok ()) with
      | error e =>
        refine Or.inl ⟨e, ?_⟩
        simp [check_charity_project_active, hcl]
      | ok u =>
        refine Or.inr ⟨p0, rfl, ?_, rfl, rfl, rfl⟩
        simp [check_charity_project_active, hcl, ht]

theorem claim_C10_no_engine_witness :
    truthyNat (some 0) = false ∧
    ((∃ e, partially_update_charity_project 4
        [{ id := 1, name := "a", description := "d",
           base := ⟨100, 30, false, 0, none⟩ }]
        [⟨70, 0, false, 1, none⟩] 1 ⟨none, some "upd", some 0⟩
        = .error e) ∨
    (∃ p, check_charity_project_exists 1
        [{ id := 1, name := "a", description := "d",
           base := ⟨100, 30, false, 0, none⟩ }] = .ok p ∧
      partially_update_charity_project 4
        [{ id := 1, name := "a", description := "d",
           base := ⟨100, 30, false, 0, none⟩ }]
        [⟨70, 0, false, 1, none⟩] 1 ⟨none, some "upd", some 0⟩
        = .ok (charity_project_crud_update p ⟨none, some "upd", some 0⟩,
            [⟨70, 0, false, 1, none⟩], 0) ∧
      (charity_project_crud_update p ⟨none, some "upd", some 0⟩).base.invested_amount
        = p.base.invested_amount ∧
      (charity_project_crud_update p ⟨none, some "upd", some 0⟩).base.fully_invested
        = p.base.fully_invested ∧
      (charity_project_crud_update p ⟨none, some "upd", some 0⟩).base.close_date
        = p.base.close_date)) :=
  ⟨by decide,
    claim_C10_no_engine 4
      [{ id := 1, name := "a", description := "d",
         base := ⟨100, 30, false, 0, none⟩ }]
      [⟨70, 0, false, 1, none⟩] 1 ⟨none, some "upd", some 0⟩ (by decide)⟩

/-- C8: `full_amount` can be changed by update only while the project is
open and only to a value `>= invested_amount`.  A closed (fully invested)
project is rejected with `projectClosed` before anything runs; a truthy
new `full_amount` below the invested amount is rejected with
`invalidFullAmount` before any mutation or engine run; and every
successful update returns a project whose `full_amount` is either
unchanged or (project open) at least the already-invested amount.  The
`hschema` hypothesis is the request-schema validation done upstream
(`full_amount` is a positive integer when present). -/
theorem claim_C8_update_guard (now : Nat) (projects : List CharityProject)
    (donations : List Investable) (project_id : Nat)
    (obj_in : CharityProjectUpdate) (p : CharityProject)
    (hfind : check_charity_project_exists project_id projects = .ok p)
    (hschema : obj_in.full_amount ≠ some 0) :
    (p.base.fully_invested = true →
      partially_update_charity_project now projects donations project_id
          obj_in = .error .projectClosed) ∧
    (p.base.fully_invested = false → truthyStr obj_in.name = false →
      truthyNat obj_in.full_amount = true →
      obj_in.full_amount.getD 0 < p.base.invested_amount →
      partially_update_charity_project now projects donations project_id
          obj_in = .error .invalidFullAmount) ∧
    (∀ p' ds' n,
      partially_update_charity_project now projects donations project_id
          obj_in = .ok (p', ds', n) →
      p'.base.full_amount = p.base.full_amount ∨
      (p.base.fully_invested = false ∧
        p.base.invested_amount ≤ p'.base.full_amount)) := by
  refine ⟨?_, ?_, ?_⟩
  · intro hcl
    unfold partially_update_charity_project
    rw [hfind]
    simp [check_charity_project_active, hcl]
  · intro hop hname ht hlt
    unfold partially_update_charity_project
    rw [hfind]
    simp [check_charity_project_active, hop, hname, ht,
      check_charity_project_updated_amount, hlt]
  · intro p' ds' n hok
    unfold partially_update_charity_project at hok
    rw [hfind] at hok
    by_cases hcl : p.base.fully_invested = true
    · simp [check_charity_project_active, hcl] at hok
    · simp only [Bool.not_eq_true] at hcl
      simp only [check_charity_project_active, hcl, Bool.false_eq_true,
        if_false] at hok
      cases hnc : (if truthyStr obj_in.name then
          check_name_duplicate (obj_in.name.getD "") projects
        else .ok ()) with
      | error e => rw [hnc] at hok; exact absurd hok (by simp)
      | ok u =>
        rw [hnc] at hok
        by_cases ht : truthyNat obj_in.full_amount = true
        · simp only [ht, Bool.not_true, Bool.false_eq_true, if_false] at hok
          by_cases hlt : obj_in.full_amount.getD 0 < p.base.invested_amount
          · simp [check_charity_project_updated_amount, hlt] at hok
          · simp only [check_charity_project_updated_amount, hlt, if_false,
              Except.ok.injEq, Prod.mk.injEq] at hok
            obtain ⟨n0, hsome, hn0⟩ := truthyNat_true_exists ht
            refine Or.inr ⟨hcl, ?_⟩
            have hfa : p'.base.full_amount
                = obj_in.full_amount.getD p.base.full_amount := by
              rw [← hok.1]
              simpa [charity_project_crud_update] using
                donation_process_source_full_amount now (list_open donations)
                  (charity_project_crud_update p obj_in).base
            have hle := Nat.le_of_not_lt hlt
            rw [hsome] at hfa hle
            simp only [Option.getD_some] at hfa hle
            rw [hfa]
            exact hle
        · simp only [Bool.not_eq_true] at ht
          simp only [ht, Bool.not_false, if_true, Except.ok.injEq,
            Prod.mk.injEq] at hok
          left
          rw [← hok.1]
          have hnone : obj_in.full_amount = none :=
            truthyNat_false_eq_none ht hschema
          simp [charity_project_crud_update, hnone]

theorem claim_C8_update_guard_witness :
    check_charity_project_exists 1
        [{ id := 1, name := "a", description := "d",
           base := ⟨100, 60, false, 0, none⟩ }]
      = .ok { id := 1, name := "a", description := "d",
              base := ⟨100, 60, false, 0, none⟩ } ∧
    (some 40 : Option Nat) ≠ some 0 ∧
    (({ id := 1, name := "a", description := "d",
        base := ⟨100, 60, false, 0, none⟩ } : CharityProject).base.fully_invested = false →
      truthyStr (none : Option String) = false →
      truthyNat (some 40) = true →
      (some 40 : Option Nat).getD 0
        < ({ id := 1, name := "a", description := "d",
             base := ⟨100, 60, false, 0, none⟩ } : CharityProject).base.invested_amount →
      partially_update_charity_project 6
          [{ id := 1, name := "a", description := "d",
             base := ⟨100, 60, false, 0, none⟩ }] [] 1 ⟨none, none, some 40⟩
        = .error .invalidFullAmount) :=
  ⟨by rfl, by decide,
    (claim_C8_update_guard 6
      [{ id := 1, name := "a", description := "d",
         base := ⟨100, 60, false, 0, none⟩ }] [] 1 ⟨none, none, some 40⟩
      { id := 1, name := "a", description := "d",
        base := ⟨100, 60, false, 0, none⟩ } (by rfl) (by decide)).2.1⟩
